import Mathlib

/-!
Shallow embedding of the `seekablestream` ring-buffer library
(`seekablestream.c` / `seekablestream.h`) and proofs of the spec's claims.

Sizes (`sstm_size_t`, 32-bit unsigned in C) are modelled as `Nat` and seek
offsets (`sstm_offs_t`, 32-bit signed) as `Int`; the spec bounds meaningful
capacities well below 2^31, so the exact arithmetic model coincides with the
machine arithmetic on the states the library is designed for.  The backing
ring storage is modelled as a total function `Nat → Nat` (index to byte
value); `memcpy`/`memset` become pointwise updates on a contiguous range.
Result codes keep their C values as `Int` constants.
-/

/-- `SSTM_OK` status code. -/
def SSTM_OK : Int := 0

/-- `SSTM_ERR_NO_MEM` status code. -/
def SSTM_ERR_NO_MEM : Int := -2

/-- `SSTM_ERR_NO_SPACE` status code. -/
def SSTM_ERR_NO_SPACE : Int := -3

/-- `SSTM_ERR_NO_DATA` status code. -/
def SSTM_ERR_NO_DATA : Int := -4

/-- `SSTM_ERR_BAD_OFFS` status code. -/
def SSTM_ERR_BAD_OFFS : Int := -5

/-- `SSTM_CAP_SIZE_MIN` from the header. -/
def SSTM_CAP_SIZE_MIN : Nat := 128

/-- `SSTM_CAP_SIZE_DEF` from the header. -/
def SSTM_CAP_SIZE_DEF : Nat := 1024

/-- The context `struct _sstm_ctx`, with the nested `conf`/`cache` structs
flattened into one record.  `ring_buff` maps an index into the allocated
storage to the byte stored there. -/
structure SstmCtx where
  cap_size : Nat
  alloc_size : Nat
  used_size : Nat
  stale_size : Nat
  fresh_size : Nat
  free_size : Nat
  ring_buff : Nat → Nat
  head_idx : Nat
  tail_idx : Nat
  seek_offs : Nat

/-- `memcpy(dst + dpos, src + spos, n)` on function-modelled byte stores. -/
def memcpy (dst : Nat → Nat) (dpos : Nat) (src : Nat → Nat) (spos n : Nat) :
    Nat → Nat :=
  fun i => if dpos ≤ i ∧ i < dpos + n then src (spos + (i - dpos)) else dst i

/-- `memset(dst + dpos, v, n)` on function-modelled byte stores. -/
def memset (dst : Nat → Nat) (dpos v n : Nat) : Nat → Nat :=
  fun i => if dpos ≤ i ∧ i < dpos + n then v else dst i

/-- Reading `n` consecutive bytes starting at index `p` (no wraparound),
as a single `memcpy` out of the ring buffer produces them. -/
def readBytes (buff : Nat → Nat) (p n : Nat) : List Nat :=
  (List.range n).map fun j => buff (p + j)

/-- Result of `sstm_new`: either a fresh context, the `NO_MEM` failure, or
the undefined behaviour reached when the code stores through a NULL
context pointer (see `sstm_new` below). -/
inductive NewResult where
  | ok (ctx : SstmCtx)
  | noMem
  | nullDeref

/-- The freshly initialized context built at the end of `sstm_new`
(lines 125-134 of the C source).  The C leaves the malloc'd ring storage
uninitialized; the model uses the all-zero store, which no operation reads
before writing. -/
def mkCtx (cap_size alloc_size : Nat) : SstmCtx where
  cap_size := cap_size
  alloc_size := alloc_size
  used_size := 0
  stale_size := 0
  fresh_size := 0
  free_size := cap_size
  ring_buff := fun _ => 0
  head_idx := 0
  tail_idx := 0
  seek_offs := 0

/-- `sstm_new`.  `conf` is `none` for a NULL configuration pointer and
`some c` for a configuration requesting capacity `c`.  The two `Bool`
arguments say whether the ring-buffer `malloc` and the context `malloc`
succeed.  NOTE: the C source's second NULL check (line 120) tests
`ring_buff` again instead of `new_ctx`; it is therefore dead code, and when
the context allocation fails the code falls through and stores through the
NULL `new_ctx` pointer — modelled as the `nullDeref` outcome. -/
def sstm_new (conf : Option Nat) (ringAllocOk ctxAllocOk : Bool) : NewResult :=
  let cap_size : Nat :=
    match conf with
    | none => SSTM_CAP_SIZE_DEF
    | some c => if c < SSTM_CAP_SIZE_MIN then SSTM_CAP_SIZE_DEF else c
  let alloc_size : Nat := ((cap_size >>> 3) + 1) <<< 3
  if ringAllocOk = false then
    NewResult.noMem
  else
    -- line 120: `if (ring_buff == NULL)` — tests the wrong variable,
    -- so this branch can never fire here.
    if ringAllocOk = false then
      NewResult.noMem
    else if ctxAllocOk = false then
      NewResult.nullDeref
    else
      NewResult.ok (mkCtx cap_size alloc_size)

/-- Capacity of the produced context, if any. -/
def NewResult.capOf : NewResult → Option Nat
  | .ok ctx => some ctx.cap_size
  | _ => none

/-- `sstm_clean`. -/
def sstm_clean (ctx : SstmCtx) : Int × SstmCtx :=
  let stale_size := ctx.stale_size
  if stale_size = 0 then
    (SSTM_OK, ctx)
  else
    (SSTM_OK,
      { ctx with
        head_idx := (ctx.head_idx + stale_size) % (ctx.cap_size + 1)
        used_size := ctx.used_size - stale_size
        stale_size := 0
        free_size := ctx.free_size + stale_size
        seek_offs := 0 })

/-- `sstm_read`.  `wantData` is whether the destination pointer is
non-NULL; the third component of the result is the byte list deposited at
the destination (empty when no copy happens). -/
def sstm_read (ctx : SstmCtx) (wantData : Bool) (size : Nat) (cleanup : Bool) :
    Int × SstmCtx × List Nat :=
  if size = 0 then
    (SSTM_OK, ctx, [])
  else if ctx.fresh_size < size then
    (SSTM_ERR_NO_DATA, ctx, [])
  else
    let new_head_idx := (ctx.head_idx + ctx.seek_offs) % (ctx.cap_size + 1)
    let out : List Nat :=
      if wantData then
        if size ≤ ctx.cap_size + 1 - new_head_idx then
          readBytes ctx.ring_buff new_head_idx size
        else
          let first_copy_size := ctx.cap_size + 1 - new_head_idx
          readBytes ctx.ring_buff new_head_idx first_copy_size ++
            readBytes ctx.ring_buff 0 (size - first_copy_size)
      else []
    let ctx1 :=
      { ctx with
        seek_offs := ctx.seek_offs + size
        stale_size := ctx.stale_size + size
        fresh_size := ctx.fresh_size - size }
    if cleanup then
      (SSTM_OK, (sstm_clean ctx1).2, out)
    else
      (SSTM_OK, ctx1, out)

/-- `sstm_write`.  `data` is `none` for a NULL source pointer (zero fill)
and `some src` for a source buffer whose byte at offset `i` is `src i`. -/
def sstm_write (ctx : SstmCtx) (data : Option (Nat → Nat)) (size : Nat) :
    Int × SstmCtx :=
  if size = 0 then
    (SSTM_OK, ctx)
  else if ctx.free_size < size then
    (SSTM_ERR_NO_SPACE, ctx)
  else
    if size ≤ ctx.cap_size + 1 - ctx.tail_idx then
      let buff1 :=
        match data with
        | some src => memcpy ctx.ring_buff ctx.tail_idx src 0 size
        | none => memset ctx.ring_buff ctx.tail_idx 0 size
      (SSTM_OK,
        { ctx with
          ring_buff := buff1
          tail_idx := (ctx.tail_idx + size) % (ctx.cap_size + 1)
          used_size := ctx.used_size + size
          fresh_size := ctx.fresh_size + size
          free_size := ctx.free_size - size })
    else
      let first_copy_size := ctx.cap_size + 1 - ctx.tail_idx
      let second_copy_size := size - first_copy_size
      let buff1 :=
        match data with
        | some src =>
            memcpy (memcpy ctx.ring_buff ctx.tail_idx src 0 first_copy_size)
              0 src first_copy_size second_copy_size
        | none =>
            memset (memset ctx.ring_buff ctx.tail_idx 0 first_copy_size)
              0 0 second_copy_size
      (SSTM_OK,
        { ctx with
          ring_buff := buff1
          tail_idx := second_copy_size
          used_size := ctx.used_size + size
          fresh_size := ctx.fresh_size + size
          free_size := ctx.free_size - size })

/-- `sstm_whence_t`. -/
inductive Whence where
  | set
  | cur
  | fromEnd

/-- `sstm_seek`. -/
def sstm_seek (ctx : SstmCtx) (offset : Int) (whence : Whence) :
    Int × SstmCtx :=
  let abs_offs : Int :=
    match whence with
    | .set => offset
    | .cur => (ctx.seek_offs : Int) + offset
    | .fromEnd => (ctx.used_size : Int) + offset
  if abs_offs < 0 then
    (SSTM_ERR_BAD_OFFS, ctx)
  else if (ctx.used_size : Int) < abs_offs then
    (SSTM_ERR_BAD_OFFS, ctx)
  else if abs_offs.toNat = ctx.seek_offs then
    (SSTM_OK, ctx)
  else
    (SSTM_OK,
      { ctx with
        seek_offs := abs_offs.toNat
        stale_size := abs_offs.toNat
        fresh_size := ctx.used_size - abs_offs.toNat })

/-- States reachable through the public API: a freshly created stream,
closed under the four mutating operations (on every path, success or
failure). -/
inductive Reachable : SstmCtx → Prop where
  | init (conf : Option Nat) (ctx : SstmCtx)
      (h : sstm_new conf true true = NewResult.ok ctx) : Reachable ctx
  | write (s : SstmCtx) (data : Option (Nat → Nat)) (size : Nat)
      (h : Reachable s) : Reachable (sstm_write s data size).2
  | read (s : SstmCtx) (w : Bool) (size : Nat) (c : Bool)
      (h : Reachable s) : Reachable (sstm_read s w size c).2.1
  | seek (s : SstmCtx) (off : Int) (wh : Whence)
      (h : Reachable s) : Reachable (sstm_seek s off wh).2
  | clean (s : SstmCtx) (h : Reachable s) : Reachable (sstm_clean s).2

/-- The five documented invariants of the stream state (§3 of the spec),
stated verbatim: `used = stale + fresh`; `free = capacity - used`;
`0 ≤ cursor ≤ used` and `cursor = stale`; the circular distance from
`head` to `tail` mod `capacity+1` equals `used`; `head, tail ∈ [0, cap]`. -/
def StreamInv (s : SstmCtx) : Prop :=
  s.used_size = s.stale_size + s.fresh_size ∧
  s.free_size = s.cap_size - s.used_size ∧
  (s.seek_offs ≤ s.used_size ∧ s.seek_offs = s.stale_size) ∧
  (s.tail_idx + (s.cap_size + 1) - s.head_idx) % (s.cap_size + 1) =
    s.used_size ∧
  (s.head_idx ≤ s.cap_size ∧ s.tail_idx ≤ s.cap_size)


/-! ### Arithmetic helpers for the ring indices -/

theorem mod_two_cases (x m : Nat) (_hm : 0 < m) (h : x < 2 * m) :
    x % m = if x < m then x else x - m := by
  split
  · exact Nat.mod_eq_of_lt (by assumption)
  · rw [Nat.mod_eq_sub_mod (by omega), Nat.mod_eq_of_lt (by omega)]

theorem ring_shift_inj (m h a b : Nat) (ha : a < m) (hb : b < m)
    (heq : (h + a) % m = (h + b) % m) : a = b := by
  have hab : a % m = b % m := Nat.ModEq.add_left_cancel' h heq
  rwa [Nat.mod_eq_of_lt ha, Nat.mod_eq_of_lt hb] at hab

theorem tail_of_dist (m h t u : Nat) (hm : 0 < m) (hh : h < m) (ht : t < m)
    (hd : (t + m - h) % m = u) : t = (h + u) % m := by
  have hu : u < m := by
    rw [← hd]
    exact Nat.mod_lt _ hm
  rw [mod_two_cases (t + m - h) m hm (by omega)] at hd
  rw [mod_two_cases (h + u) m hm (by omega)]
  split at hd <;> (split <;> omega)

theorem dist_of_tail (m h u : Nat) (hm : 0 < m) (hh : h < m) (hu : u < m) :
    ((h + u) % m + m - h) % m = u := by
  rw [mod_two_cases (h + u) m hm (by omega)]
  split
  · rw [mod_two_cases _ m hm (by omega)]
    split <;> omega
  · rw [mod_two_cases _ m hm (by omega)]
    split <;> omega

theorem range_map_congr {α : Type} (n : Nat) (f g : Nat → α)
    (h : ∀ j, j < n → f j = g j) :
    (List.range n).map f = (List.range n).map g := by
  induction n with
  | zero => simp
  | succ k ih =>
      rw [List.range_succ, List.map_append, List.map_append,
        ih (fun j hj => h j (by omega))]
      simp [h k (by omega)]

theorem map_getD_range (l : List Nat) :
    (List.range l.length).map (fun i => l.getD i 0) = l := by
  induction l with
  | nil => simp
  | cons a t ih =>
      rw [List.length_cons, List.range_succ_eq_map, List.map_cons,
        List.map_map]
      simp only [List.getD_cons_zero]
      have : ((fun i => List.getD (a :: t) i 0) ∘ Nat.succ) =
          fun i => t.getD i 0 := by
        funext i
        simp [List.getD_cons_succ]
      rw [this, ih]

/-! ### Derived observations on a stream state -/

/-- The `n` bytes of the ring starting at index `p`, read circularly with
modulus `m`. -/
def ringRead (buff : Nat → Nat) (m p n : Nat) : List Nat :=
  (List.range n).map fun j => buff ((p + j) % m)

/-- The fresh region of a stream: the bytes from the cursor position
`(head + seek_offs) mod (capacity+1)` up to the write frontier — exactly
the bytes `sstm_read` would deliver. -/
def freshBytes (s : SstmCtx) : List Nat :=
  ringRead s.ring_buff (s.cap_size + 1)
    ((s.head_idx + s.seek_offs) % (s.cap_size + 1)) s.fresh_size

/-! ### Unfolding lemmas for the four mutating operations -/

theorem clean_noop (s : SstmCtx) (h : s.stale_size = 0) :
    sstm_clean s = (SSTM_OK, s) := by
  simp [sstm_clean, h]

theorem clean_state (s : SstmCtx) (h : s.stale_size ≠ 0) :
    sstm_clean s =
      (SSTM_OK,
        { s with
          head_idx := (s.head_idx + s.stale_size) % (s.cap_size + 1)
          used_size := s.used_size - s.stale_size
          stale_size := 0
          free_size := s.free_size + s.stale_size
          seek_offs := 0 }) := by
  simp [sstm_clean, h]

theorem read_zero (s : SstmCtx) (w : Bool) (c : Bool) :
    sstm_read s w 0 c = (SSTM_OK, s, []) := by
  simp [sstm_read]

theorem read_nodata (s : SstmCtx) (w : Bool) (n : Nat) (c : Bool)
    (h0 : n ≠ 0) (h : s.fresh_size < n) :
    sstm_read s w n c = (SSTM_ERR_NO_DATA, s, []) := by
  simp [sstm_read, h0, h]

theorem read_noclean_state (s : SstmCtx) (w : Bool) (n : Nat)
    (h0 : n ≠ 0) (h : ¬ s.fresh_size < n) :
    (sstm_read s w n false).2.1 =
      { s with
        seek_offs := s.seek_offs + n
        stale_size := s.stale_size + n
        fresh_size := s.fresh_size - n } := by
  simp [sstm_read, h0, h]

theorem read_clean_state (s : SstmCtx) (w : Bool) (n : Nat)
    (h0 : n ≠ 0) (h : ¬ s.fresh_size < n) :
    (sstm_read s w n true).2.1 =
      (sstm_clean
        { s with
          seek_offs := s.seek_offs + n
          stale_size := s.stale_size + n
          fresh_size := s.fresh_size - n }).2 := by
  simp [sstm_read, h0, h]

theorem read_ok (s : SstmCtx) (w : Bool) (n : Nat) (c : Bool)
    (h : ¬ s.fresh_size < n) :
    (sstm_read s w n c).1 = SSTM_OK := by
  by_cases h0 : n = 0
  · simp [sstm_read, h0]
  · by_cases hc : c <;> simp [sstm_read, h0, h, hc]

theorem read_out_noexpand (s : SstmCtx) (n : Nat) (c : Bool)
    (h0 : n ≠ 0) (h : ¬ s.fresh_size < n) :
    (sstm_read s true n c).2.2 =
      (if n ≤ s.cap_size + 1 - (s.head_idx + s.seek_offs) % (s.cap_size + 1)
      then
        readBytes s.ring_buff
          ((s.head_idx + s.seek_offs) % (s.cap_size + 1)) n
      else
        readBytes s.ring_buff
          ((s.head_idx + s.seek_offs) % (s.cap_size + 1))
          (s.cap_size + 1 - (s.head_idx + s.seek_offs) % (s.cap_size + 1)) ++
          readBytes s.ring_buff 0
            (n - (s.cap_size + 1 -
              (s.head_idx + s.seek_offs) % (s.cap_size + 1)))) := by
  by_cases hc : c <;> simp [sstm_read, h0, h, hc]

theorem write_zero (s : SstmCtx) (data : Option (Nat → Nat)) :
    sstm_write s data 0 = (SSTM_OK, s) := by
  simp [sstm_write]

theorem write_nospace (s : SstmCtx) (data : Option (Nat → Nat)) (n : Nat)
    (h0 : n ≠ 0) (h : s.free_size < n) :
    sstm_write s data n = (SSTM_ERR_NO_SPACE, s) := by
  simp [sstm_write, h0, h]

theorem write_ok (s : SstmCtx) (data : Option (Nat → Nat)) (n : Nat)
    (h : ¬ s.free_size < n) :
    (sstm_write s data n).1 = SSTM_OK := by
  by_cases h0 : n = 0
  · simp [sstm_write, h0]
  · by_cases hb : n ≤ s.cap_size + 1 - s.tail_idx <;>
      cases data <;> simp [sstm_write, h0, h, hb]

theorem write_cache (s : SstmCtx) (data : Option (Nat → Nat)) (n : Nat)
    (h0 : n ≠ 0) (h : ¬ s.free_size < n) :
    (sstm_write s data n).2.used_size = s.used_size + n ∧
    (sstm_write s data n).2.fresh_size = s.fresh_size + n ∧
    (sstm_write s data n).2.free_size = s.free_size - n ∧
    (sstm_write s data n).2.stale_size = s.stale_size ∧
    (sstm_write s data n).2.seek_offs = s.seek_offs ∧
    (sstm_write s data n).2.head_idx = s.head_idx ∧
    (sstm_write s data n).2.cap_size = s.cap_size ∧
    (sstm_write s data n).2.alloc_size = s.alloc_size := by
  by_cases hb : n ≤ s.cap_size + 1 - s.tail_idx <;>
    cases data <;> simp [sstm_write, h0, h, hb]

theorem write_tail (s : SstmCtx) (data : Option (Nat → Nat)) (n : Nat)
    (h0 : n ≠ 0) (h : ¬ s.free_size < n) (hn : n ≤ s.cap_size)
    (ht : s.tail_idx ≤ s.cap_size) :
    (sstm_write s data n).2.tail_idx = (s.tail_idx + n) % (s.cap_size + 1) := by
  by_cases hb : n ≤ s.cap_size + 1 - s.tail_idx
  · cases data <;> simp [sstm_write, h0, h, hb]
  · cases data <;> simp only [sstm_write, h0, h, hb, if_neg, if_true,
      if_false, ite_false, ite_true, reduceIte] <;>
    · rw [mod_two_cases (s.tail_idx + n) (s.cap_size + 1) (by omega)
        (by omega)]
      split <;> omega

/-- The absolute target offset computed by the `switch` at the top of
`sstm_seek` (lines 317-321). -/
def seekTarget (s : SstmCtx) (offset : Int) : Whence → Int
  | .set => offset
  | .cur => (s.seek_offs : Int) + offset
  | .fromEnd => (s.used_size : Int) + offset

theorem seek_bad (s : SstmCtx) (off : Int) (wh : Whence)
    (h : seekTarget s off wh < 0 ∨
      (s.used_size : Int) < seekTarget s off wh) :
    sstm_seek s off wh = (SSTM_ERR_BAD_OFFS, s) := by
  cases wh <;> (
    simp only [seekTarget] at h
    rcases h with h | h <;> simp [sstm_seek, h])

theorem seek_noop (s : SstmCtx) (off : Int) (wh : Whence)
    (h1 : ¬ seekTarget s off wh < 0)
    (h2 : ¬ (s.used_size : Int) < seekTarget s off wh)
    (h3 : (seekTarget s off wh).toNat = s.seek_offs) :
    sstm_seek s off wh = (SSTM_OK, s) := by
  cases wh <;> (
    simp only [seekTarget] at h1 h2 h3
    simp [sstm_seek, h1, h2, h3])

theorem seek_move (s : SstmCtx) (off : Int) (wh : Whence)
    (h1 : ¬ seekTarget s off wh < 0)
    (h2 : ¬ (s.used_size : Int) < seekTarget s off wh)
    (h3 : (seekTarget s off wh).toNat ≠ s.seek_offs) :
    sstm_seek s off wh =
      (SSTM_OK,
        { s with
          seek_offs := (seekTarget s off wh).toNat
          stale_size := (seekTarget s off wh).toNat
          fresh_size := s.used_size - (seekTarget s off wh).toNat }) := by
  cases wh <;> (
    simp only [seekTarget] at h1 h2 h3 ⊢
    simp [sstm_seek, h1, h2, h3])

/-! ### The invariants are maintained by every operation -/

theorem inv_mkCtx (cap alloc : Nat) : StreamInv (mkCtx cap alloc) := by
  refine ⟨rfl, by simp [mkCtx], ⟨Nat.le_refl _, rfl⟩, ?_, by simp [mkCtx],
    by simp [mkCtx]⟩
  simp [mkCtx]

theorem inv_used_le (s : SstmCtx) (h : StreamInv s) :
    s.used_size ≤ s.cap_size := by
  obtain ⟨-, -, -, h4, -⟩ := h
  rw [← h4]
  have := Nat.mod_lt (s.tail_idx + (s.cap_size + 1) - s.head_idx)
    (show 0 < s.cap_size + 1 by omega)
  omega

theorem inv_tail_eq (s : SstmCtx) (h : StreamInv s) :
    s.tail_idx = (s.head_idx + s.used_size) % (s.cap_size + 1) := by
  obtain ⟨-, -, -, h4, h5a, h5b⟩ := h
  exact tail_of_dist (s.cap_size + 1) s.head_idx s.tail_idx s.used_size
    (by omega) (by omega) (by omega) h4

theorem inv_clean (s : SstmCtx) (h : StreamInv s) :
    StreamInv (sstm_clean s).2 := by
  by_cases h0 : s.stale_size = 0
  · rw [clean_noop s h0]
    exact h
  · have hused := inv_used_le s h
    have htail := inv_tail_eq s h
    obtain ⟨h1, h2, ⟨h3a, h3b⟩, h4, h5a, h5b⟩ := h
    rw [clean_state s h0]
    have hm : 0 < s.cap_size + 1 := by omega
    have hstale : s.stale_size ≤ s.used_size := by omega
    have hh' : (s.head_idx + s.stale_size) % (s.cap_size + 1) <
        s.cap_size + 1 := Nat.mod_lt _ hm
    simp only [StreamInv]
    refine ⟨by omega, by omega, ⟨by omega, trivial⟩, ?_, by omega, by omega⟩
    have key : s.tail_idx =
        ((s.head_idx + s.stale_size) % (s.cap_size + 1) +
          (s.used_size - s.stale_size)) % (s.cap_size + 1) := by
      rw [Nat.mod_add_mod]
      have : s.head_idx + s.stale_size + (s.used_size - s.stale_size) =
          s.head_idx + s.used_size := by omega
      rw [this]
      exact htail
    calc (s.tail_idx + (s.cap_size + 1) -
        (s.head_idx + s.stale_size) % (s.cap_size + 1)) % (s.cap_size + 1)
        = (((s.head_idx + s.stale_size) % (s.cap_size + 1) +
            (s.used_size - s.stale_size)) % (s.cap_size + 1) +
            (s.cap_size + 1) -
            (s.head_idx + s.stale_size) % (s.cap_size + 1)) %
            (s.cap_size + 1) := by rw [← key]
      _ = s.used_size - s.stale_size :=
            dist_of_tail (s.cap_size + 1) _ _ hm hh' (by omega)

theorem inv_read (s : SstmCtx) (w : Bool) (n : Nat) (c : Bool)
    (h : StreamInv s) : StreamInv (sstm_read s w n c).2.1 := by
  by_cases h0 : n = 0
  · rw [h0, read_zero]
    exact h
  by_cases hd : s.fresh_size < n
  · rw [read_nodata s w n c h0 hd]
    exact h
  have hmid : StreamInv
      { s with
        seek_offs := s.seek_offs + n
        stale_size := s.stale_size + n
        fresh_size := s.fresh_size - n } := by
    obtain ⟨h1, h2, ⟨h3a, h3b⟩, h4, h5a, h5b⟩ := h
    simp only [StreamInv]
    exact ⟨by omega, h2, ⟨by omega, by omega⟩, h4, h5a, h5b⟩
  cases c
  · rw [read_noclean_state s w n h0 hd]
    exact hmid
  · rw [read_clean_state s w n h0 hd]
    exact inv_clean _ hmid

theorem inv_write (s : SstmCtx) (data : Option (Nat → Nat)) (n : Nat)
    (h : StreamInv s) : StreamInv (sstm_write s data n).2 := by
  by_cases h0 : n = 0
  · rw [h0, write_zero]
    exact h
  by_cases hf : s.free_size < n
  · rw [write_nospace s data n h0 hf]
    exact h
  have hused := inv_used_le s h
  have htail := inv_tail_eq s h
  obtain ⟨h1, h2, ⟨h3a, h3b⟩, h4, h5a, h5b⟩ := h
  have hm : 0 < s.cap_size + 1 := by omega
  have hn : n ≤ s.cap_size := by omega
  obtain ⟨hw1, hw2, hw3, hw4, hw5, hw6, hw7, hw8⟩ :=
    write_cache s data n h0 hf
  have hwt := write_tail s data n h0 hf hn h5b
  have htl : (sstm_write s data n).2.tail_idx =
      ((sstm_write s data n).2.head_idx +
        (sstm_write s data n).2.used_size) % (s.cap_size + 1) := by
    rw [hwt, hw6, hw1, htail, Nat.mod_add_mod, Nat.add_assoc]
  refine ⟨by omega, by omega, ⟨by omega, by omega⟩, ?_, by omega, ?_⟩
  · rw [hw7, htl, hw6, hw1]
    exact dist_of_tail (s.cap_size + 1) _ _ hm (by omega) (by omega)
  · rw [hw7, hwt]
    have := Nat.mod_lt (s.tail_idx + n) hm
    omega

theorem inv_seek (s : SstmCtx) (off : Int) (wh : Whence)
    (h : StreamInv s) : StreamInv (sstm_seek s off wh).2 := by
  by_cases hneg : seekTarget s off wh < 0
  · rw [seek_bad s off wh (Or.inl hneg)]
    exact h
  by_cases hgt : (s.used_size : Int) < seekTarget s off wh
  · rw [seek_bad s off wh (Or.inr hgt)]
    exact h
  by_cases heq : (seekTarget s off wh).toNat = s.seek_offs
  · rw [seek_noop s off wh hneg hgt heq]
    exact h
  rw [seek_move s off wh hneg hgt heq]
  obtain ⟨h1, h2, ⟨h3a, h3b⟩, h4, h5a, h5b⟩ := h
  have htn : (seekTarget s off wh).toNat ≤ s.used_size := by omega
  simp only [StreamInv]
  exact ⟨by omega, h2, ⟨by omega, trivial⟩, h4, h5a, h5b⟩

theorem reachable_inv (s : SstmCtx) (h : Reachable s) : StreamInv s := by
  induction h with
  | init conf ctx hnew =>
      cases conf <;> simp [sstm_new] at hnew <;> rw [← hnew] <;>
        exact inv_mkCtx _ _
  | write s data size _ ih => exact inv_write s data size ih
  | read s w size c _ ih => exact inv_read s w size c ih
  | seek s off wh _ ih => exact inv_seek s off wh ih
  | clean s _ ih => exact inv_clean s ih

/-! ### Byte-level effect of write and read on the ring storage -/

theorem write_buff_single (s : SstmCtx) (src : Nat → Nat) (n : Nat)
    (h0 : n ≠ 0) (hf : ¬ s.free_size < n)
    (hb : n ≤ s.cap_size + 1 - s.tail_idx) :
    (sstm_write s (some src) n).2.ring_buff =
      memcpy s.ring_buff s.tail_idx src 0 n := by
  simp [sstm_write, h0, hf, hb]

theorem write_buff_split (s : SstmCtx) (src : Nat → Nat) (n : Nat)
    (h0 : n ≠ 0) (hf : ¬ s.free_size < n)
    (hb : ¬ n ≤ s.cap_size + 1 - s.tail_idx) :
    (sstm_write s (some src) n).2.ring_buff =
      memcpy (memcpy s.ring_buff s.tail_idx src 0
          (s.cap_size + 1 - s.tail_idx))
        0 src (s.cap_size + 1 - s.tail_idx)
        (n - (s.cap_size + 1 - s.tail_idx)) := by
  simp [sstm_write, h0, hf, hb]

theorem write_buff_hit (s : SstmCtx) (src : Nat → Nat) (n : Nat)
    (h0 : n ≠ 0) (hf : ¬ s.free_size < n) (hn : n ≤ s.cap_size)
    (ht : s.tail_idx ≤ s.cap_size) (j : Nat) (hj : j < n) :
    (sstm_write s (some src) n).2.ring_buff
      ((s.tail_idx + j) % (s.cap_size + 1)) = src j := by
  by_cases hb : n ≤ s.cap_size + 1 - s.tail_idx
  · rw [write_buff_single s src n h0 hf hb,
      Nat.mod_eq_of_lt (show s.tail_idx + j < s.cap_size + 1 by omega)]
    simp only [memcpy]
    rw [if_pos (by omega)]
    congr 1
    omega
  · rw [write_buff_split s src n h0 hf hb]
    by_cases hjf : j < s.cap_size + 1 - s.tail_idx
    · rw [Nat.mod_eq_of_lt (show s.tail_idx + j < s.cap_size + 1 by omega)]
      simp only [memcpy]
      rw [if_neg (by omega), if_pos (by omega)]
      congr 1
      omega
    · rw [mod_two_cases (s.tail_idx + j) (s.cap_size + 1) (by omega)
        (by omega), if_neg (by omega)]
      simp only [memcpy]
      rw [if_pos (by omega)]
      congr 1
      omega

theorem write_buff_miss (s : SstmCtx) (src : Nat → Nat) (n : Nat)
    (h0 : n ≠ 0) (hf : ¬ s.free_size < n) (hn : n ≤ s.cap_size)
    (ht : s.tail_idx ≤ s.cap_size) (i : Nat) (hi : i < s.cap_size + 1)
    (hmiss : ∀ j, j < n → (s.tail_idx + j) % (s.cap_size + 1) ≠ i) :
    (sstm_write s (some src) n).2.ring_buff i = s.ring_buff i := by
  by_cases hb : n ≤ s.cap_size + 1 - s.tail_idx
  · rw [write_buff_single s src n h0 hf hb]
    simp only [memcpy]
    rw [if_neg]
    intro ⟨hc1, hc2⟩
    exact hmiss (i - s.tail_idx) (by omega)
      (by rw [Nat.mod_eq_of_lt (by omega)]; omega)
  · rw [write_buff_split s src n h0 hf hb]
    simp only [memcpy]
    rw [if_neg, if_neg]
    · intro ⟨hc1, hc2⟩
      exact hmiss (i - s.tail_idx) (by omega)
        (by rw [Nat.mod_eq_of_lt (by omega)]; omega)
    · intro ⟨hc1, hc2⟩
      refine hmiss (s.cap_size + 1 - s.tail_idx + i) (by omega) ?_
      rw [mod_two_cases _ (s.cap_size + 1) (by omega) (by omega),
        if_neg (by omega)]
      omega

theorem read_out_eq (s : SstmCtx) (n : Nat) (c : Bool)
    (h0 : n ≠ 0) (hd : ¬ s.fresh_size < n) (hcap : n ≤ s.cap_size) :
    (sstm_read s true n c).2.2 =
      ringRead s.ring_buff (s.cap_size + 1)
        ((s.head_idx + s.seek_offs) % (s.cap_size + 1)) n := by
  have hp : (s.head_idx + s.seek_offs) % (s.cap_size + 1) < s.cap_size + 1 :=
    Nat.mod_lt _ (by omega)
  rw [read_out_noexpand s n c h0 hd]
  by_cases hb : n ≤ s.cap_size + 1 -
      (s.head_idx + s.seek_offs) % (s.cap_size + 1)
  · rw [if_pos hb]
    unfold readBytes ringRead
    exact range_map_congr n _ _ fun j hj => by
      have hlt : (s.head_idx + s.seek_offs) % (s.cap_size + 1) + j <
          s.cap_size + 1 := by omega
      rw [Nat.mod_eq_of_lt hlt]
  · rw [if_neg hb]
    unfold readBytes ringRead
    have hsplit : n =
        (s.cap_size + 1 - (s.head_idx + s.seek_offs) % (s.cap_size + 1)) +
        (n - (s.cap_size + 1 -
          (s.head_idx + s.seek_offs) % (s.cap_size + 1))) := by omega
    conv_rhs => rw [hsplit, List.range_add, List.map_append, List.map_map]
    congr 1
    · exact range_map_congr _ _ _ fun j hj => by
        have hlt : (s.head_idx + s.seek_offs) % (s.cap_size + 1) + j <
            s.cap_size + 1 := by omega
        rw [Nat.mod_eq_of_lt hlt]
    · exact range_map_congr _ _ _ fun i hi => by
        simp only [Function.comp]
        have hm' : i < s.cap_size + 1 := by omega
        have harg : (s.head_idx + s.seek_offs) % (s.cap_size + 1) +
            (s.cap_size + 1 -
              (s.head_idx + s.seek_offs) % (s.cap_size + 1) + i) =
            (s.cap_size + 1) + i := by omega
        rw [Nat.zero_add, harg, Nat.add_mod_left, Nat.mod_eq_of_lt hm']

theorem ringRead_take (buff : Nat → Nat) (m p a N : Nat) (h : a ≤ N) :
    (ringRead buff m p N).take a = ringRead buff m p a := by
  unfold ringRead
  rw [← List.map_take, List.take_range, Nat.min_eq_left h]

theorem freshBytes_nil (s : SstmCtx) (h : s.fresh_size = 0) :
    freshBytes s = [] := by
  simp [freshBytes, ringRead, h]

/-- The source-byte view of a concrete byte list (the C write reads
`size` bytes from the `data` pointer). -/
def listSrc (bytes : List Nat) : Nat → Nat :=
  fun i => bytes.getD i 0

theorem map_listSrc (bytes : List Nat) :
    (List.range bytes.length).map (listSrc bytes) = bytes :=
  map_getD_range bytes

/-- A successful write appends exactly the source bytes to the fresh
region and leaves every byte of the stale and remaining fresh regions in
place — in both the contiguous and the wraparound branch. -/
theorem write_freshBytes (s : SstmCtx) (hInv : StreamInv s)
    (src : Nat → Nat) (n : Nat) (h0 : n ≠ 0) (hf : ¬ s.free_size < n) :
    freshBytes (sstm_write s (some src) n).2 =
      freshBytes s ++ (List.range n).map src := by
  have hused := inv_used_le s hInv
  have htail := inv_tail_eq s hInv
  obtain ⟨h1, h2, ⟨h3a, h3b⟩, h4, h5a, h5b⟩ := hInv
  have hn : n ≤ s.cap_size := by omega
  obtain ⟨hw1, hw2, hw3, hw4, hw5, hw6, hw7, hw8⟩ :=
    write_cache s (some src) n h0 hf
  unfold freshBytes ringRead
  rw [hw2, hw5, hw6, hw7, List.range_add, List.map_append, List.map_map]
  congr 1
  · refine range_map_congr _ _ _ fun j hj => ?_
    refine write_buff_miss s src n h0 hf hn h5b _
      (Nat.mod_lt _ (by omega)) fun i hi heq => ?_
    have e1 : (s.tail_idx + i) % (s.cap_size + 1) =
        (s.head_idx + (s.used_size + i)) % (s.cap_size + 1) := by
      rw [htail, Nat.mod_add_mod, Nat.add_assoc]
    have e2 : ((s.head_idx + s.seek_offs) % (s.cap_size + 1) + j) %
        (s.cap_size + 1) =
        (s.head_idx + (s.seek_offs + j)) % (s.cap_size + 1) := by
      rw [Nat.mod_add_mod, Nat.add_assoc]
    rw [e1, e2] at heq
    have := ring_shift_inj (s.cap_size + 1) s.head_idx _ _
      (by omega) (by omega) heq
    omega
  · refine range_map_congr _ _ _ fun i hi => ?_
    simp only [Function.comp]
    have e3 : ((s.head_idx + s.seek_offs) % (s.cap_size + 1) +
        (s.fresh_size + i)) % (s.cap_size + 1) =
        (s.tail_idx + i) % (s.cap_size + 1) := by
      rw [Nat.mod_add_mod, htail, Nat.mod_add_mod]
      congr 1
      omega
    rw [e3]
    exact write_buff_hit s src n h0 hf hn h5b i hi

/-! ### The claims -/

/-- C1: for every reachable stream state, after any of the four mutating
operations (write, read, seek, clean) returns — on the success path, the
no-op path, or the error path — the five invariants hold:
`used = stale + fresh`; `free = capacity - used`; `0 ≤ cursor ≤ used` with
`cursor = stale`; the circular distance from head to tail modulo
`capacity+1` equals `used`; and head and tail each lie in `[0, capacity]`. -/
theorem sstm_ops_preserve_invariants (s : SstmCtx) (h : Reachable s)
    (data : Option (Nat → Nat)) (wn : Nat) (w : Bool) (rn : Nat) (c : Bool)
    (off : Int) (wh : Whence) :
    StreamInv (sstm_write s data wn).2 ∧
    StreamInv (sstm_read s w rn c).2.1 ∧
    StreamInv (sstm_seek s off wh).2 ∧
    StreamInv (sstm_clean s).2 := by
  have hInv := reachable_inv s h
  exact ⟨inv_write s data wn hInv, inv_read s w rn c hInv,
    inv_seek s off wh hInv, inv_clean s hInv⟩

/-- Witness for C1 at the freshly created default stream. -/
theorem sstm_ops_preserve_invariants_witness :
    StreamInv (sstm_write (mkCtx 1024 1032) none 0).2 ∧
    StreamInv (sstm_read (mkCtx 1024 1032) false 0 false).2.1 ∧
    StreamInv (sstm_seek (mkCtx 1024 1032) 0 Whence.set).2 ∧
    StreamInv (sstm_clean (mkCtx 1024 1032)).2 :=
  sstm_ops_preserve_invariants (mkCtx 1024 1032)
    (Reachable.init none (mkCtx 1024 1032) rfl) none 0 false 0 false 0
    Whence.set

/-- C2 (code bug): when the ring-buffer allocation succeeds but the
context allocation fails, `sstm_new` does NOT return `NoMemory` and does
NOT free the ring buffer — line 120 re-tests `ring_buff == NULL` instead
of `new_ctx == NULL`, so the code falls through and stores through the
NULL context pointer. -/
theorem sstm_new_ctx_alloc_failure_bug :
    sstm_new none true false = NewResult.nullDeref ∧
    sstm_new none false true = NewResult.noMem ∧
    sstm_new none false false = NewResult.noMem :=
  ⟨rfl, rfl, rfl⟩

/-- C9: `create()` with no config yields capacity 1024; a requested
capacity `c ≥ 128` is used exactly; a requested capacity `c < 128`
(including 0) is replaced by the default 1024, not the 128 floor. -/
theorem sstm_new_capacity (c1 c2 : Nat) (h1 : 128 ≤ c1) (h2 : c2 < 128) :
    (sstm_new none true true).capOf = some 1024 ∧
    (sstm_new (some c1) true true).capOf = some c1 ∧
    (sstm_new (some c2) true true).capOf = some 1024 := by
  refine ⟨rfl, ?_, ?_⟩
  · have hc : ¬ c1 < SSTM_CAP_SIZE_MIN := by
      simp only [SSTM_CAP_SIZE_MIN]
      omega
    simp [sstm_new, NewResult.capOf, mkCtx, hc]
  · have hc : c2 < SSTM_CAP_SIZE_MIN := by
      simp only [SSTM_CAP_SIZE_MIN]
      omega
    simp [sstm_new, NewResult.capOf, mkCtx, hc, SSTM_CAP_SIZE_DEF]

/-- Witness for C9 at requested capacities 200 and 5. -/
theorem sstm_new_capacity_witness :
    (128 ≤ 200 ∧ 5 < 128) ∧
    ((sstm_new none true true).capOf = some 1024 ∧
      (sstm_new (some 200) true true).capOf = some 200 ∧
      (sstm_new (some 5) true true).capOf = some 1024) :=
  ⟨⟨by decide, by decide⟩, sstm_new_capacity 200 5 (by decide) (by decide)⟩

/-- C10: `sstm_read` with `size = 0` returns `SSTM_OK` and leaves the
whole state (counters, indices, cursor, buffer bytes) unchanged, for
every value of the cleanup flag — the zero-size early return fires before
the cleanup step, so no reclamation happens even when stale data is
pending. -/
theorem sstm_read_zero_noop (s : SstmCtx) (w : Bool) (c : Bool) :
    (sstm_read s w 0 c).1 = SSTM_OK ∧
    (sstm_read s w 0 c).2.1 = s ∧
    (sstm_read s w 0 c).2.2 = [] := by
  rw [read_zero]
  exact ⟨rfl, rfl, rfl⟩

/-- C5: whenever `sstm_write` returns `NoSpace`, `sstm_read` returns
`NoData`, or `sstm_seek` returns `BadOffset`, the whole stream state —
every counter, both indices, the cursor, and every byte of the backing
buffer — is exactly as it was before the call. -/
theorem sstm_error_paths_frame (s : SstmCtx) (data : Option (Nat → Nat))
    (wn : Nat) (w : Bool) (rn : Nat) (c : Bool) (off : Int) (wh : Whence) :
    ((sstm_write s data wn).1 = SSTM_ERR_NO_SPACE →
      (sstm_write s data wn).2 = s) ∧
    ((sstm_read s w rn c).1 = SSTM_ERR_NO_DATA →
      (sstm_read s w rn c).2.1 = s) ∧
    ((sstm_seek s off wh).1 = SSTM_ERR_BAD_OFFS →
      (sstm_seek s off wh).2 = s) := by
  refine ⟨fun hres => ?_, fun hres => ?_, fun hres => ?_⟩
  · by_cases h0 : wn = 0
    · rw [h0, write_zero] at hres
      simp [SSTM_OK, SSTM_ERR_NO_SPACE] at hres
    by_cases hf : s.free_size < wn
    · rw [write_nospace s data wn h0 hf]
    · rw [write_ok s data wn hf] at hres
      simp [SSTM_OK, SSTM_ERR_NO_SPACE] at hres
  · by_cases h0 : rn = 0
    · rw [h0, read_zero] at hres
      simp [SSTM_OK, SSTM_ERR_NO_DATA] at hres
    by_cases hd : s.fresh_size < rn
    · rw [read_nodata s w rn c h0 hd]
    · rw [read_ok s w rn c hd] at hres
      simp [SSTM_OK, SSTM_ERR_NO_DATA] at hres
  · by_cases hneg : seekTarget s off wh < 0
    · rw [seek_bad s off wh (Or.inl hneg)]
    by_cases hgt : (s.used_size : Int) < seekTarget s off wh
    · rw [seek_bad s off wh (Or.inr hgt)]
    by_cases heq : (seekTarget s off wh).toNat = s.seek_offs
    · rw [seek_noop s off wh hneg hgt heq] at hres
      simp [SSTM_OK, SSTM_ERR_BAD_OFFS] at hres
    · rw [seek_move s off wh hneg hgt heq] at hres
      simp [SSTM_OK, SSTM_ERR_BAD_OFFS] at hres

/-- Witness for C5: an overfull write, a read on an empty stream, and a
negative absolute seek all leave the fresh default stream untouched. -/
theorem sstm_error_paths_frame_witness :
    (sstm_write (mkCtx 1024 1032) none 2000).2 = mkCtx 1024 1032 ∧
    (sstm_read (mkCtx 1024 1032) false 1 false).2.1 = mkCtx 1024 1032 ∧
    (sstm_seek (mkCtx 1024 1032) (-1) Whence.set).2 = mkCtx 1024 1032 :=
  ⟨(sstm_error_paths_frame (mkCtx 1024 1032) none 2000 false 1 false (-1)
      Whence.set).1 (by decide),
    (sstm_error_paths_frame (mkCtx 1024 1032) none 2000 false 1 false (-1)
      Whence.set).2.1 (by decide),
    (sstm_error_paths_frame (mkCtx 1024 1032) none 2000 false 1 false (-1)
      Whence.set).2.2 (by decide)⟩

/-- C6: a write of `0 < size ≤ free` succeeds, advances `tail` by `size`
modulo `capacity+1` (covering both the single-copy and the wraparound
split-copy branch), increases `used` and `fresh` by `size`, decreases
`free` by `size`, and leaves `stale`, the cursor and `head` unchanged. -/
theorem sstm_write_success_effect (s : SstmCtx) (h : Reachable s)
    (data : Option (Nat → Nat)) (n : Nat) (h0 : 0 < n)
    (hn : n ≤ s.free_size) :
    (sstm_write s data n).1 = SSTM_OK ∧
    (sstm_write s data n).2.tail_idx =
      (s.tail_idx + n) % (s.cap_size + 1) ∧
    (sstm_write s data n).2.used_size = s.used_size + n ∧
    (sstm_write s data n).2.fresh_size = s.fresh_size + n ∧
    (sstm_write s data n).2.free_size = s.free_size - n ∧
    (sstm_write s data n).2.stale_size = s.stale_size ∧
    (sstm_write s data n).2.seek_offs = s.seek_offs ∧
    (sstm_write s data n).2.head_idx = s.head_idx := by
  have hInv := reachable_inv s h
  have hused := inv_used_le s hInv
  obtain ⟨h1, h2, ⟨h3a, h3b⟩, h4, h5a, h5b⟩ := hInv
  have hf : ¬ s.free_size < n := by omega
  obtain ⟨hw1, hw2, hw3, hw4, hw5, hw6, hw7, hw8⟩ :=
    write_cache s data n (by omega) hf
  exact ⟨write_ok s data n hf,
    write_tail s data n (by omega) hf (by omega) h5b,
    hw1, hw2, hw3, hw4, hw5, hw6⟩

/-- Witness for C6: a 3-byte zero-fill write into the fresh default
stream. -/
theorem sstm_write_success_effect_witness :
    (sstm_write (mkCtx 1024 1032) none 3).1 = SSTM_OK ∧
    (sstm_write (mkCtx 1024 1032) none 3).2.tail_idx =
      ((mkCtx 1024 1032).tail_idx + 3) % ((mkCtx 1024 1032).cap_size + 1) ∧
    (sstm_write (mkCtx 1024 1032) none 3).2.used_size =
      (mkCtx 1024 1032).used_size + 3 ∧
    (sstm_write (mkCtx 1024 1032) none 3).2.fresh_size =
      (mkCtx 1024 1032).fresh_size + 3 ∧
    (sstm_write (mkCtx 1024 1032) none 3).2.free_size =
      (mkCtx 1024 1032).free_size - 3 ∧
    (sstm_write (mkCtx 1024 1032) none 3).2.stale_size =
      (mkCtx 1024 1032).stale_size ∧
    (sstm_write (mkCtx 1024 1032) none 3).2.seek_offs =
      (mkCtx 1024 1032).seek_offs ∧
    (sstm_write (mkCtx 1024 1032) none 3).2.head_idx =
      (mkCtx 1024 1032).head_idx :=
  sstm_write_success_effect (mkCtx 1024 1032)
    (Reachable.init none (mkCtx 1024 1032) rfl) none 3 (by decide)
    (by decide)

/-- C7: the seek target is `offset` for `ABSOLUTE`, `cursor + offset` for
`RELATIVE`, and `used + offset` for `FROM_END` (`seekTarget`); the call
returns `BadOffset` exactly when the target is negative or exceeds
`used`, leaving the state untouched; a target equal to the current cursor
succeeds as a pure no-op; otherwise the call succeeds setting
`cursor = stale = target` and `fresh = used - target`, touching nothing
else. -/
theorem sstm_seek_spec (s : SstmCtx) (_h : Reachable s) (off : Int)
    (wh : Whence) :
    ((sstm_seek s off wh).1 = SSTM_ERR_BAD_OFFS ↔
      (seekTarget s off wh < 0 ∨
        (s.used_size : Int) < seekTarget s off wh)) ∧
    (seekTarget s off wh < 0 ∨ (s.used_size : Int) < seekTarget s off wh →
      (sstm_seek s off wh).2 = s) ∧
    (¬ seekTarget s off wh < 0 →
      ¬ (s.used_size : Int) < seekTarget s off wh →
      (seekTarget s off wh).toNat = s.seek_offs →
      (sstm_seek s off wh).1 = SSTM_OK ∧ (sstm_seek s off wh).2 = s) ∧
    (¬ seekTarget s off wh < 0 →
      ¬ (s.used_size : Int) < seekTarget s off wh →
      (seekTarget s off wh).toNat ≠ s.seek_offs →
      (sstm_seek s off wh).1 = SSTM_OK ∧
      (sstm_seek s off wh).2.seek_offs = (seekTarget s off wh).toNat ∧
      (sstm_seek s off wh).2.stale_size = (seekTarget s off wh).toNat ∧
      (sstm_seek s off wh).2.fresh_size =
        s.used_size - (seekTarget s off wh).toNat ∧
      (sstm_seek s off wh).2.used_size = s.used_size ∧
      (sstm_seek s off wh).2.free_size = s.free_size ∧
      (sstm_seek s off wh).2.head_idx = s.head_idx ∧
      (sstm_seek s off wh).2.tail_idx = s.tail_idx ∧
      (sstm_seek s off wh).2.ring_buff = s.ring_buff) := by
  by_cases hneg : seekTarget s off wh < 0
  · rw [seek_bad s off wh (Or.inl hneg)]
    exact ⟨Iff.intro (fun _ => Or.inl hneg) (fun _ => rfl),
      fun _ => rfl,
      fun hn _ _ => absurd hneg hn,
      fun hn _ _ => absurd hneg hn⟩
  by_cases hgt : (s.used_size : Int) < seekTarget s off wh
  · rw [seek_bad s off wh (Or.inr hgt)]
    exact ⟨Iff.intro (fun _ => Or.inr hgt) (fun _ => rfl),
      fun _ => rfl,
      fun _ hg _ => absurd hgt hg,
      fun _ hg _ => absurd hgt hg⟩
  by_cases heq : (seekTarget s off wh).toNat = s.seek_offs
  · rw [seek_noop s off wh hneg hgt heq]
    refine ⟨Iff.intro (fun hres => ?_) (fun hd => ?_),
      fun hd => ?_, fun _ _ _ => ⟨rfl, rfl⟩, fun _ _ hne => absurd heq hne⟩
    · simp [SSTM_OK, SSTM_ERR_BAD_OFFS] at hres
    · exact absurd hd (by tauto)
    · exact absurd hd (by tauto)
  · rw [seek_move s off wh hneg hgt heq]
    refine ⟨Iff.intro (fun hres => ?_) (fun hd => ?_),
      fun hd => ?_, fun _ _ hq => absurd hq heq,
      fun _ _ _ =>
        ⟨rfl, rfl, rfl, rfl, rfl, rfl, rfl, rfl, rfl⟩⟩
    · simp [SSTM_OK, SSTM_ERR_BAD_OFFS] at hres
    · exact absurd hd (by tauto)
    · exact absurd hd (by tauto)

/-- Witness for C7: an absolute seek to offset 0 on the fresh default
stream (the no-op success case). -/
theorem sstm_seek_spec_witness :
    ((sstm_seek (mkCtx 1024 1032) 0 Whence.set).1 = SSTM_ERR_BAD_OFFS ↔
      (seekTarget (mkCtx 1024 1032) 0 Whence.set < 0 ∨
        ((mkCtx 1024 1032).used_size : Int) <
          seekTarget (mkCtx 1024 1032) 0 Whence.set)) ∧
    (seekTarget (mkCtx 1024 1032) 0 Whence.set < 0 ∨
      ((mkCtx 1024 1032).used_size : Int) <
        seekTarget (mkCtx 1024 1032) 0 Whence.set →
      (sstm_seek (mkCtx 1024 1032) 0 Whence.set).2 = mkCtx 1024 1032) ∧
    (¬ seekTarget (mkCtx 1024 1032) 0 Whence.set < 0 →
      ¬ ((mkCtx 1024 1032).used_size : Int) <
        seekTarget (mkCtx 1024 1032) 0 Whence.set →
      (seekTarget (mkCtx 1024 1032) 0 Whence.set).toNat =
        (mkCtx 1024 1032).seek_offs →
      (sstm_seek (mkCtx 1024 1032) 0 Whence.set).1 = SSTM_OK ∧
      (sstm_seek (mkCtx 1024 1032) 0 Whence.set).2 = mkCtx 1024 1032) ∧
    (¬ seekTarget (mkCtx 1024 1032) 0 Whence.set < 0 →
      ¬ ((mkCtx 1024 1032).used_size : Int) <
        seekTarget (mkCtx 1024 1032) 0 Whence.set →
      (seekTarget (mkCtx 1024 1032) 0 Whence.set).toNat ≠
        (mkCtx 1024 1032).seek_offs →
      (sstm_seek (mkCtx 1024 1032) 0 Whence.set).1 = SSTM_OK ∧
      (sstm_seek (mkCtx 1024 1032) 0 Whence.set).2.seek_offs =
        (seekTarget (mkCtx 1024 1032) 0 Whence.set).toNat ∧
      (sstm_seek (mkCtx 1024 1032) 0 Whence.set).2.stale_size =
        (seekTarget (mkCtx 1024 1032) 0 Whence.set).toNat ∧
      (sstm_seek (mkCtx 1024 1032) 0 Whence.set).2.fresh_size =
        (mkCtx 1024 1032).used_size -
          (seekTarget (mkCtx 1024 1032) 0 Whence.set).toNat ∧
      (sstm_seek (mkCtx 1024 1032) 0 Whence.set).2.used_size =
        (mkCtx 1024 1032).used_size ∧
      (sstm_seek (mkCtx 1024 1032) 0 Whence.set).2.free_size =
        (mkCtx 1024 1032).free_size ∧
      (sstm_seek (mkCtx 1024 1032) 0 Whence.set).2.head_idx =
        (mkCtx 1024 1032).head_idx ∧
      (sstm_seek (mkCtx 1024 1032) 0 Whence.set).2.tail_idx =
        (mkCtx 1024 1032).tail_idx ∧
      (sstm_seek (mkCtx 1024 1032) 0 Whence.set).2.ring_buff =
        (mkCtx 1024 1032).ring_buff) :=
  sstm_seek_spec (mkCtx 1024 1032)
    (Reachable.init none (mkCtx 1024 1032) rfl) 0 Whence.set

/-- The concrete state used to refute the literal form of C8: capacity
1024, two bytes written, one of them already read (so `stale = 1`,
`fresh = 1`). -/
def cexCtx : SstmCtx :=
  (sstm_read (sstm_write (mkCtx 1024 1032) (some (listSrc [7, 7])) 2).2
    true 1 false).2.1

/-- Counterexample to C8 as stated: at `cexCtx` (reachable, with
`stale = 1` pending) a `read(1, reclaim_after=true)` leaves `free`
`stale + N = 2` higher — not `N = 1` higher — than the same read without
reclamation. -/
theorem sstm_read_reclaim_free_counterexample :
    Reachable cexCtx ∧ 0 < 1 ∧ 1 ≤ cexCtx.fresh_size ∧
    ¬ (sstm_read cexCtx true 1 true).2.1.free_size =
        (sstm_read cexCtx true 1 false).2.1.free_size + 1 :=
  ⟨Reachable.read _ true 1 false
      (Reachable.write _ (some (listSrc [7, 7])) 2
        (Reachable.init none (mkCtx 1024 1032) rfl)),
    by decide, by decide, by decide⟩

/-- C8 (amended): for `0 < N ≤ fresh`, `read(N, reclaim_after=true)`
succeeds and afterwards `stale = 0`, `cursor = 0`, `head` has advanced by
the reclaimed stale amount — the pre-read `stale` plus `N` — modulo
`capacity+1`, and `free` is exactly that same amount (`stale + N`, which
is `N` precisely when no stale bytes preceded the read) higher than it
would be immediately after the same read without reclamation. -/
theorem sstm_read_reclaim (s : SstmCtx) (_h : Reachable s) (w : Bool)
    (N : Nat) (h1 : 0 < N) (h2 : N ≤ s.fresh_size) :
    (sstm_read s w N true).1 = SSTM_OK ∧
    (sstm_read s w N true).2.1.stale_size = 0 ∧
    (sstm_read s w N true).2.1.seek_offs = 0 ∧
    (sstm_read s w N true).2.1.head_idx =
      (s.head_idx + (s.stale_size + N)) % (s.cap_size + 1) ∧
    (sstm_read s w N true).2.1.free_size =
      (sstm_read s w N false).2.1.free_size + (s.stale_size + N) := by
  have h0 : N ≠ 0 := by omega
  have hd : ¬ s.fresh_size < N := by omega
  have hmid := read_clean_state s w N h0 hd
  have hnc := read_noclean_state s w N h0 hd
  have hne : ({ s with
      seek_offs := s.seek_offs + N
      stale_size := s.stale_size + N
      fresh_size := s.fresh_size - N } : SstmCtx).stale_size ≠ 0 := by
    simp only []
    omega
  rw [hnc]
  rw [hmid, clean_state _ hne]
  exact ⟨read_ok s w N true hd, rfl, rfl, rfl, rfl⟩

/-- Witness for C8 (amended): a 1-byte reclaiming read after a 2-byte
write into the fresh default stream. -/
theorem sstm_read_reclaim_witness :
    (sstm_read (sstm_write (mkCtx 1024 1032) (some (listSrc [3, 4])) 2).2
      true 1 true).1 = SSTM_OK ∧
    (sstm_read (sstm_write (mkCtx 1024 1032) (some (listSrc [3, 4])) 2).2
      true 1 true).2.1.stale_size = 0 ∧
    (sstm_read (sstm_write (mkCtx 1024 1032) (some (listSrc [3, 4])) 2).2
      true 1 true).2.1.seek_offs = 0 ∧
    (sstm_read (sstm_write (mkCtx 1024 1032) (some (listSrc [3, 4])) 2).2
      true 1 true).2.1.head_idx =
      ((sstm_write (mkCtx 1024 1032) (some (listSrc [3, 4])) 2).2.head_idx +
        ((sstm_write (mkCtx 1024 1032)
          (some (listSrc [3, 4])) 2).2.stale_size + 1)) %
        ((sstm_write (mkCtx 1024 1032)
          (some (listSrc [3, 4])) 2).2.cap_size + 1) ∧
    (sstm_read (sstm_write (mkCtx 1024 1032) (some (listSrc [3, 4])) 2).2
      true 1 true).2.1.free_size =
      (sstm_read (sstm_write (mkCtx 1024 1032) (some (listSrc [3, 4])) 2).2
        true 1 false).2.1.free_size +
      ((sstm_write (mkCtx 1024 1032)
        (some (listSrc [3, 4])) 2).2.stale_size + 1) :=
  sstm_read_reclaim
    (sstm_write (mkCtx 1024 1032) (some (listSrc [3, 4])) 2).2
    (Reachable.write _ (some (listSrc [3, 4])) 2
      (Reachable.init none (mkCtx 1024 1032) rfl))
    true 1 (by decide) (by decide)

theorem read_cache (s : SstmCtx) (w : Bool) (n : Nat)
    (h0 : n ≠ 0) (hd : ¬ s.fresh_size < n) :
    (sstm_read s w n false).2.1.stale_size = s.stale_size + n ∧
    (sstm_read s w n false).2.1.fresh_size = s.fresh_size - n ∧
    (sstm_read s w n false).2.1.seek_offs = s.seek_offs + n ∧
    (sstm_read s w n false).2.1.used_size = s.used_size ∧
    (sstm_read s w n false).2.1.free_size = s.free_size ∧
    (sstm_read s w n false).2.1.head_idx = s.head_idx ∧
    (sstm_read s w n false).2.1.tail_idx = s.tail_idx ∧
    (sstm_read s w n false).2.1.cap_size = s.cap_size ∧
    (sstm_read s w n false).2.1.ring_buff = s.ring_buff := by
  simp [sstm_read, h0, hd]

/-- C3: from any reachable state, a write of `bytes` (with
`len bytes ≤ free`) followed by a read of `len bytes` succeeds and
delivers exactly the first `len bytes` of the fresh region starting at
the cursor; when `fresh = 0` before the write the delivered bytes are
exactly `bytes`, and afterwards `stale` has grown by `len bytes` and
`fresh = 0` — the wraparound split-copy paths included. -/
theorem sstm_write_read_roundtrip (s : SstmCtx) (h : Reachable s)
    (bytes : List Nat) (hlen : bytes.length ≤ s.free_size) :
    (sstm_write s (some (listSrc bytes)) bytes.length).1 = SSTM_OK ∧
    (sstm_read (sstm_write s (some (listSrc bytes)) bytes.length).2 true
      bytes.length false).1 = SSTM_OK ∧
    (sstm_read (sstm_write s (some (listSrc bytes)) bytes.length).2 true
      bytes.length false).2.2 =
      (freshBytes
        (sstm_write s (some (listSrc bytes)) bytes.length).2).take
        bytes.length ∧
    (s.fresh_size = 0 →
      (sstm_read (sstm_write s (some (listSrc bytes)) bytes.length).2 true
        bytes.length false).2.2 = bytes ∧
      (sstm_read (sstm_write s (some (listSrc bytes)) bytes.length).2 true
        bytes.length false).2.1.stale_size =
        s.stale_size + bytes.length ∧
      (sstm_read (sstm_write s (some (listSrc bytes)) bytes.length).2 true
        bytes.length false).2.1.fresh_size = 0) := by
  by_cases h0 : bytes.length = 0
  · have hb : bytes = [] := List.length_eq_zero.mp h0
    subst hb
    simp only [List.length_nil, write_zero, read_zero, List.take_zero]
    exact ⟨trivial, trivial, trivial, fun hf0 => ⟨trivial, by omega, hf0⟩⟩
  · have hInv := reachable_inv s h
    have hf : ¬ s.free_size < bytes.length := by omega
    have hw_ok := write_ok s (some (listSrc bytes)) bytes.length hf
    obtain ⟨hw1, hw2, hw3, hw4, hw5, hw6, hw7, hw8⟩ :=
      write_cache s (some (listSrc bytes)) bytes.length h0 hf
    have hInv1 : StreamInv
        (sstm_write s (some (listSrc bytes)) bytes.length).2 :=
      inv_write s _ _ hInv
    have hused1 := inv_used_le _ hInv1
    have hd1 : ¬ (sstm_write s
        (some (listSrc bytes)) bytes.length).2.fresh_size <
        bytes.length := by
      rw [hw2]
      omega
    have hcap1 : bytes.length ≤
        (sstm_write s (some (listSrc bytes)) bytes.length).2.cap_size := by
      obtain ⟨g1, -, -, -, -, -⟩ := hInv1
      omega
    have hro := read_ok _ true bytes.length false hd1
    have hout := read_out_eq _ bytes.length false h0 hd1 hcap1
    have hfb := write_freshBytes s hInv (listSrc bytes) bytes.length h0 hf
    have htake : (freshBytes
        (sstm_write s (some (listSrc bytes)) bytes.length).2).take
        bytes.length =
        ringRead
          (sstm_write s (some (listSrc bytes)) bytes.length).2.ring_buff
          ((sstm_write s (some (listSrc bytes)) bytes.length).2.cap_size
            + 1)
          (((sstm_write s (some (listSrc bytes)) bytes.length).2.head_idx +
            (sstm_write s
              (some (listSrc bytes)) bytes.length).2.seek_offs) %
            ((sstm_write s (some (listSrc bytes)) bytes.length).2.cap_size
              + 1))
          bytes.length := by
      unfold freshBytes
      rw [hw2]
      exact ringRead_take _ _ _ _ _ (by omega)
    have hout3 : (sstm_read
        (sstm_write s (some (listSrc bytes)) bytes.length).2 true
        bytes.length false).2.2 =
        (freshBytes
          (sstm_write s (some (listSrc bytes)) bytes.length).2).take
          bytes.length := by
      rw [hout, htake]
    obtain ⟨rc1, rc2, -, -, -, -, -, -, -⟩ :=
      read_cache (sstm_write s (some (listSrc bytes)) bytes.length).2 true
        bytes.length h0 hd1
    refine ⟨hw_ok, hro, hout3, fun hf0 => ⟨?_, ?_, ?_⟩⟩
    · rw [hout3, hfb, freshBytes_nil s hf0, List.nil_append, map_listSrc,
        List.take_length]
    · rw [rc1, hw4]
    · rw [rc2, hw2]
      omega

/-- Witness for C3: writing `[1, 2, 3]` into the fresh default stream and
reading it back. -/
theorem sstm_write_read_roundtrip_witness :
    ([1, 2, 3] : List Nat).length ≤ (mkCtx 1024 1032).free_size ∧
    ((sstm_write (mkCtx 1024 1032) (some (listSrc [1, 2, 3]))
        ([1, 2, 3] : List Nat).length).1 = SSTM_OK ∧
      (sstm_read (sstm_write (mkCtx 1024 1032) (some (listSrc [1, 2, 3]))
        ([1, 2, 3] : List Nat).length).2 true
        ([1, 2, 3] : List Nat).length false).1 = SSTM_OK ∧
      (sstm_read (sstm_write (mkCtx 1024 1032) (some (listSrc [1, 2, 3]))
        ([1, 2, 3] : List Nat).length).2 true
        ([1, 2, 3] : List Nat).length false).2.2 =
        (freshBytes (sstm_write (mkCtx 1024 1032)
          (some (listSrc [1, 2, 3]))
          ([1, 2, 3] : List Nat).length).2).take
          ([1, 2, 3] : List Nat).length ∧
      ((mkCtx 1024 1032).fresh_size = 0 →
        (sstm_read (sstm_write (mkCtx 1024 1032)
          (some (listSrc [1, 2, 3]))
          ([1, 2, 3] : List Nat).length).2 true
          ([1, 2, 3] : List Nat).length false).2.2 = [1, 2, 3] ∧
        (sstm_read (sstm_write (mkCtx 1024 1032)
          (some (listSrc [1, 2, 3]))
          ([1, 2, 3] : List Nat).length).2 true
          ([1, 2, 3] : List Nat).length false).2.1.stale_size =
          (mkCtx 1024 1032).stale_size + ([1, 2, 3] : List Nat).length ∧
        (sstm_read (sstm_write (mkCtx 1024 1032)
          (some (listSrc [1, 2, 3]))
          ([1, 2, 3] : List Nat).length).2 true
          ([1, 2, 3] : List Nat).length false).2.1.fresh_size = 0)) :=
  ⟨by decide,
    sstm_write_read_roundtrip (mkCtx 1024 1032)
      (Reachable.init none (mkCtx 1024 1032) rfl) [1, 2, 3] (by decide)⟩

/-- C4: from any reachable state with `used = 0` and any `K ≤ free`:
writing `K` bytes, reading all `K` back (no reclamation), seeking to
absolute offset 0 and reading `K` bytes again succeeds, and the second
read delivers exactly the bytes of the first. -/
theorem sstm_rewind (s : SstmCtx) (h : Reachable s) (hu : s.used_size = 0)
    (data : Option (Nat → Nat)) (K : Nat) (hK : K ≤ s.free_size) :
    (sstm_read (sstm_write s data K).2 true K false).1 = SSTM_OK ∧
    (sstm_seek (sstm_read (sstm_write s data K).2 true K false).2.1 0
      Whence.set).1 = SSTM_OK ∧
    (sstm_read (sstm_seek
      (sstm_read (sstm_write s data K).2 true K false).2.1 0
      Whence.set).2 true K false).1 = SSTM_OK ∧
    (sstm_read (sstm_seek
      (sstm_read (sstm_write s data K).2 true K false).2.1 0
      Whence.set).2 true K false).2.2 =
      (sstm_read (sstm_write s data K).2 true K false).2.2 := by
  have hInv := reachable_inv s h
  have hInvC := hInv
  obtain ⟨h1, h2, ⟨h3a, h3b⟩, h4, h5a, h5b⟩ := hInvC
  have hfr : s.fresh_size = 0 := by omega
  have hsk : s.seek_offs = 0 := by omega
  by_cases h0 : K = 0
  · subst h0
    have hnoop := seek_noop s 0 Whence.set (by simp [seekTarget])
      (by simp [seekTarget]) (by simp [seekTarget, hsk])
    simp [write_zero, read_zero, hnoop]
  · have hf : ¬ s.free_size < K := by omega
    obtain ⟨hw1, hw2, hw3, hw4, hw5, hw6, hw7, hw8⟩ :=
      write_cache s data K h0 hf
    have hd1 : ¬ (sstm_write s data K).2.fresh_size < K := by
      rw [hw2]
      omega
    have hro1 := read_ok (sstm_write s data K).2 true K false hd1
    have hInv1 : StreamInv (sstm_write s data K).2 := inv_write s data K hInv
    have hused1 := inv_used_le _ hInv1
    have hcap1 : K ≤ (sstm_write s data K).2.cap_size := by
      obtain ⟨g1, -, -, -, -, -⟩ := hInv1
      omega
    have hout1 := read_out_eq (sstm_write s data K).2 K false h0 hd1 hcap1
    obtain ⟨rc1, rc2, rc3, rc4, rc5, rc6, rc7, rc8, rc9⟩ :=
      read_cache (sstm_write s data K).2 true K h0 hd1
    have hs2seek : (sstm_read (sstm_write s data K).2 true K
        false).2.1.seek_offs = K := by
      rw [rc3, hw5, hsk]
      omega
    have hs2used : (sstm_read (sstm_write s data K).2 true K
        false).2.1.used_size = K := by
      rw [rc4, hw1, hu]
      omega
    have htne : (seekTarget
        (sstm_read (sstm_write s data K).2 true K false).2.1 0
        Whence.set).toNat ≠
        (sstm_read (sstm_write s data K).2 true K
          false).2.1.seek_offs := by
      simp only [seekTarget, Int.toNat_zero, hs2seek]
      omega
    have hmv := seek_move
      (sstm_read (sstm_write s data K).2 true K false).2.1 0 Whence.set
      (by simp [seekTarget]) (by simp [seekTarget]) htne
    have e_seek : (sstm_seek
        (sstm_read (sstm_write s data K).2 true K false).2.1 0
        Whence.set).2.seek_offs = 0 := by
      rw [hmv]
      simp [seekTarget]
    have e_fresh : (sstm_seek
        (sstm_read (sstm_write s data K).2 true K false).2.1 0
        Whence.set).2.fresh_size = K := by
      rw [hmv]
      simp only [seekTarget, Int.toNat_zero, Nat.sub_zero]
      exact hs2used
    have e_head : (sstm_seek
        (sstm_read (sstm_write s data K).2 true K false).2.1 0
        Whence.set).2.head_idx = (sstm_write s data K).2.head_idx := by
      rw [hmv]
      exact rc6
    have e_cap : (sstm_seek
        (sstm_read (sstm_write s data K).2 true K false).2.1 0
        Whence.set).2.cap_size = (sstm_write s data K).2.cap_size := by
      rw [hmv]
      exact rc8
    have e_ring : (sstm_seek
        (sstm_read (sstm_write s data K).2 true K false).2.1 0
        Whence.set).2.ring_buff = (sstm_write s data K).2.ring_buff := by
      rw [hmv]
      exact rc9
    have hd3 : ¬ (sstm_seek
        (sstm_read (sstm_write s data K).2 true K false).2.1 0
        Whence.set).2.fresh_size < K := by
      rw [e_fresh]
      omega
    have hcap3 : K ≤ (sstm_seek
        (sstm_read (sstm_write s data K).2 true K false).2.1 0
        Whence.set).2.cap_size := by
      rw [e_cap]
      exact hcap1
    have hro3 := read_ok (sstm_seek
      (sstm_read (sstm_write s data K).2 true K false).2.1 0
      Whence.set).2 true K false hd3
    have hout3 := read_out_eq (sstm_seek
      (sstm_read (sstm_write s data K).2 true K false).2.1 0
      Whence.set).2 K false h0 hd3 hcap3
    refine ⟨hro1, ?_, hro3, ?_⟩
    · rw [hmv]
    · rw [hout3, hout1, e_ring, e_head, e_cap, e_seek, hw5, hsk]

/-- Witness for C4: a 4-byte zero-fill write, full read, rewind and
re-read on the fresh default stream. -/
theorem sstm_rewind_witness :
    (mkCtx 1024 1032).used_size = 0 ∧ 4 ≤ (mkCtx 1024 1032).free_size ∧
    ((sstm_read (sstm_write (mkCtx 1024 1032) none 4).2 true 4
        false).1 = SSTM_OK ∧
      (sstm_seek (sstm_read (sstm_write (mkCtx 1024 1032) none 4).2 true 4
        false).2.1 0 Whence.set).1 = SSTM_OK ∧
      (sstm_read (sstm_seek (sstm_read
        (sstm_write (mkCtx 1024 1032) none 4).2 true 4
        false).2.1 0 Whence.set).2 true 4 false).1 = SSTM_OK ∧
      (sstm_read (sstm_seek (sstm_read
        (sstm_write (mkCtx 1024 1032) none 4).2 true 4
        false).2.1 0 Whence.set).2 true 4 false).2.2 =
        (sstm_read (sstm_write (mkCtx 1024 1032) none 4).2 true 4
          false).2.2) :=
  ⟨rfl, by decide,
    sstm_rewind (mkCtx 1024 1032)
      (Reachable.init none (mkCtx 1024 1032) rfl) rfl none 4 (by decide)⟩
